import Mathlib

/-!
Verification development for the barrier-option pricing repository.

The Python sources are embedded shallowly over the rationals. The
transcendental library functions (`math.exp`, `math.sqrt`, `np.log`) and
the pseudo-random generator are passed in as oracle functions
`ex sq ln : ℚ → ℚ` and `draw : ℕ → ℕ → ℚ`, so every definition stays
computable; theorems that genuinely need analytic facts about `exp`
(such as `exp (a + b) = exp a * exp b`, or `exp x > 0`) take them as
explicit hypotheses on the oracle. Python's `raise ValueError` is
modelled with `Except String`. Wall-clock `runtime` return components
are not modelled (they carry no numerical content).
-/

namespace BarrierProject

/-- Embedding of `src/config.py`, `BarrierOptionParams`. -/
structure BarrierOptionParams where
  S0 : ℚ
  K : ℚ
  r : ℚ
  sigma : ℚ
  T : ℚ
  barrier : ℚ
  barrier_type : String
  option_type : String
deriving DecidableEq, Repr

/-- Embedding of `src/barrier_option.py`, `barrier_hit`.
`np.any(path <= B)` / `np.any(path >= B)` over the path;
unknown `barrier_type` raises `ValueError`. -/
def barrier_hit (path : List ℚ) (params : BarrierOptionParams) :
    Except String Bool :=
  let B := params.barrier
  if params.barrier_type = "down-and-out" then
    Except.ok (path.any (fun x => decide (x ≤ B)))
  else if params.barrier_type = "up-and-out" then
    Except.ok (path.any (fun x => decide (x ≥ B)))
  else
    Except.error ("Unknown barrier_type: " ++ params.barrier_type)

/-- Embedding of `src/barrier_option.py`, `vanilla_payoff`. -/
def vanilla_payoff (ST : ℚ) (params : BarrierOptionParams) :
    Except String ℚ :=
  if params.option_type = "call" then
    Except.ok (max (ST - params.K) 0)
  else if params.option_type = "put" then
    Except.ok (max (params.K - ST) 0)
  else
    Except.error ("Unknown option_type: " ++ params.option_type)

/-- Embedding of `src/barrier_option.py`, `barrier_payoff_from_path`.
Python's `path[-1]` on an empty list raises `IndexError`; that branch is
modelled with an error as well. -/
def barrier_payoff_from_path (path : List ℚ)
    (params : BarrierOptionParams) : Except String ℚ :=
  match barrier_hit path params with
  | Except.error e => Except.error e
  | Except.ok true => Except.ok 0
  | Except.ok false =>
      match path.getLast? with
      | none => Except.error "IndexError: path is empty"
      | some ST => vanilla_payoff ST params

/-- Total (error-free) version of `barrier_hit`, meaningful on the two
recognized barrier types; used to state theorems. -/
def barrierHitTotal (path : List ℚ) (params : BarrierOptionParams) : Bool :=
  if params.barrier_type = "down-and-out" then
    path.any (fun x => decide (x ≤ params.barrier))
  else
    path.any (fun x => decide (params.barrier ≤ x))

/-- Total version of `vanilla_payoff`, meaningful on the two recognized
option types; used to state theorems. -/
def vanillaTotal (ST : ℚ) (params : BarrierOptionParams) : ℚ :=
  if params.option_type = "call" then max (ST - params.K) 0
  else max (params.K - ST) 0

/-- Total version of `barrier_payoff_from_path`, meaningful on the
recognized types and nonempty paths; used to state theorems. -/
def payoffTotal (path : List ℚ) (params : BarrierOptionParams) : ℚ :=
  if barrierHitTotal path params then 0
  else vanillaTotal (path.getLastD 0) params

lemma barrier_hit_recognized (path : List ℚ) (params : BarrierOptionParams)
    (h : params.barrier_type = "down-and-out" ∨
         params.barrier_type = "up-and-out") :
    barrier_hit path params = Except.ok (barrierHitTotal path params) := by
  rcases h with h | h <;> simp [barrier_hit, barrierHitTotal, h, ge_iff_le]

lemma vanilla_payoff_recognized (ST : ℚ) (params : BarrierOptionParams)
    (h : params.option_type = "call" ∨ params.option_type = "put") :
    vanilla_payoff ST params = Except.ok (vanillaTotal ST params) := by
  rcases h with h | h <;> simp [vanilla_payoff, vanillaTotal, h]

lemma barrier_payoff_recognized (path : List ℚ)
    (params : BarrierOptionParams)
    (hb : params.barrier_type = "down-and-out" ∨
          params.barrier_type = "up-and-out")
    (ho : params.option_type = "call" ∨ params.option_type = "put")
    (hne : path ≠ []) :
    barrier_payoff_from_path path params =
      Except.ok (payoffTotal path params) := by
  unfold barrier_payoff_from_path
  rw [barrier_hit_recognized path params hb]
  cases hhit : barrierHitTotal path params with
  | true => simp [payoffTotal, hhit]
  | false =>
      have hlast : path.getLast? = some (path.getLastD 0) := by
        cases path with
        | nil => exact absurd rfl hne
        | cons a l => simp [List.getLastD_eq_getLast?, List.getLast?]
      simp only [hlast]
      rw [vanilla_payoff_recognized _ _ ho]
      simp [payoffTotal, hhit]

/-! ### Binomial tree engine (`src/binomial_tree.py`) -/

/-- The barrier-breach test performed at each lattice node in
`price_barrier_binomial_tree` (the two-line `if` over `barrier_type`);
an unrecognized `barrier_type` never breaches, exactly as in the source. -/
def nodeBreached (params : BarrierOptionParams) (S : ℚ) : Bool :=
  (decide (params.barrier_type = "down-and-out") &&
    decide (S ≤ params.barrier)) ||
  (decide (params.barrier_type = "up-and-out") &&
    decide (params.barrier ≤ S))

/-- Left-to-right effectful map, first error wins: the shape of a Python
`for` loop that may `raise` at each iteration. -/
def exceptMap {α : Type} (f : α → Except String ℚ) :
    List α → Except String (List ℚ)
  | [] => Except.ok []
  | a :: l =>
      match f a with
      | Except.error e => Except.error e
      | Except.ok v =>
          match exceptMap f l with
          | Except.error e => Except.error e
          | Except.ok vs => Except.ok (v :: vs)

/-- Terminal layer of the tree: the `for j in range(n_steps + 1)` loop
filling `option_values` at maturity. -/
def terminalLayer (params : BarrierOptionParams) (u d : ℚ)
    (n_steps : ℕ) : Except String (List ℚ) :=
  exceptMap
    (fun j =>
      let S_T := params.S0 * u ^ j * d ^ (n_steps - j)
      if nodeBreached params S_T then Except.ok 0
      else vanilla_payoff S_T params)
    (List.range (n_steps + 1))

/-- One pass of the in-place backward-induction loop
(`for j in range(i + 1)` mutating `option_values` left to right). -/
def backstep (params : BarrierOptionParams) (u d p disc : ℚ) (i : ℕ)
    (vals : List ℚ) : List ℚ :=
  (List.range (i + 1)).foldl
    (fun acc j =>
      let S_ij := params.S0 * u ^ j * d ^ (i - j)
      if nodeBreached params S_ij then acc.set j 0
      else acc.set j
        (disc * (p * acc.getD (j + 1) 0 + (1 - p) * acc.getD j 0)))
    vals

/-- The outer `for i in range(n_steps - 1, -1, -1)` loop: `runBack c`
still has to process layers `c - 1, c - 2, ..., 0`. -/
def runBack (params : BarrierOptionParams) (u d p disc : ℚ) :
    ℕ → List ℚ → List ℚ
  | 0, vals => vals
  | i + 1, vals =>
      runBack params u d p disc i (backstep params u d p disc i vals)

/-- CRR up factor `u = exp(sigma * sqrt(dt))`. -/
def crrU (ex sq : ℚ → ℚ) (params : BarrierOptionParams)
    (n_steps : ℕ) : ℚ :=
  ex (params.sigma * sq (params.T / (n_steps : ℚ)))

/-- CRR down factor `d = 1/u`. -/
def crrD (ex sq : ℚ → ℚ) (params : BarrierOptionParams)
    (n_steps : ℕ) : ℚ :=
  1 / crrU ex sq params n_steps

/-- CRR growth factor `a = exp(r * dt)`. -/
def crrA (ex : ℚ → ℚ) (params : BarrierOptionParams)
    (n_steps : ℕ) : ℚ :=
  ex (params.r * (params.T / (n_steps : ℚ)))

/-- CRR risk-neutral probability `p = (a - d)/(u - d)`. -/
def crrP (ex sq : ℚ → ℚ) (params : BarrierOptionParams)
    (n_steps : ℕ) : ℚ :=
  (crrA ex params n_steps - crrD ex sq params n_steps) /
    (crrU ex sq params n_steps - crrD ex sq params n_steps)

/-- CRR per-step discount `disc = exp(-r * dt)`. -/
def crrDisc (ex : ℚ → ℚ) (params : BarrierOptionParams)
    (n_steps : ℕ) : ℚ :=
  ex (-(params.r * (params.T / (n_steps : ℚ))))

/-- Embedding of `src/binomial_tree.py`, `price_barrier_binomial_tree`
(the `runtime` component of the Python return value is not modelled). -/
def price_barrier_binomial_tree (ex sq : ℚ → ℚ)
    (params : BarrierOptionParams) (n_steps : ℕ) : Except String ℚ :=
  let u := crrU ex sq params n_steps
  let d := crrD ex sq params n_steps
  let p := crrP ex sq params n_steps
  let disc := crrDisc ex params n_steps
  match terminalLayer params u d n_steps with
  | Except.error e => Except.error e
  | Except.ok terminal =>
      Except.ok ((runBack params u d p disc n_steps terminal).getD 0 0)

/-- The node update written by the backward-induction loop, as a function
of the two later-layer values it reads (`a` at index `j`, `b` at `j+1`). -/
def treeWrite (params : BarrierOptionParams) (u d p disc : ℚ)
    (i j : ℕ) (a b : ℚ) : ℚ :=
  if nodeBreached params (params.S0 * u ^ j * d ^ (i - j)) then 0
  else disc * (p * b + (1 - p) * a)

/-- Terminal node value (error-free form, recognized option types). -/
def terminalValue (params : BarrierOptionParams) (u d : ℚ)
    (n_steps j : ℕ) : ℚ :=
  let S_T := params.S0 * u ^ j * d ^ (n_steps - j)
  if nodeBreached params S_T then 0 else vanillaTotal S_T params

/-- The claim-side recurrence: `Vk params u d p disc n_steps k j` is the
value `V(i, j)` of the spec's backward recurrence at time layer
`i = n_steps - k` (so `k = 0` is maturity and `k = n_steps` is the root). -/
def Vk (params : BarrierOptionParams) (u d p disc : ℚ)
    (n_steps : ℕ) : ℕ → ℕ → ℚ
  | 0, j => terminalValue params u d n_steps j
  | k + 1, j =>
      treeWrite params u d p disc (n_steps - (k + 1)) j
        (Vk params u d p disc n_steps k j)
        (Vk params u d p disc n_steps k (j + 1))

lemma getD_set_self (l : List ℚ) (i : ℕ) (a d : ℚ) (h : i < l.length) :
    (l.set i a).getD i d = a := by
  rw [List.getD_eq_getElem?_getD, List.getElem?_set_self',
    List.getElem?_eq_getElem h]
  rfl

lemma getD_set_of_ne (l : List ℚ) (i j : ℕ) (a d : ℚ) (h : i ≠ j) :
    (l.set i a).getD j d = l.getD j d := by
  rw [List.getD_eq_getElem?_getD, List.getElem?_set_ne h,
    List.getD_eq_getElem?_getD]

lemma getD_map_range {α : Type} (f : ℕ → α) (n j : ℕ) (h : j < n) (d : α) :
    ((List.range n).map f).getD j d = f j := by
  rw [List.getD_eq_getElem?_getD, List.getElem?_map]
  simp [List.getElem?_range h]

lemma getD_take {α : Type} (l : List α) (n k : ℕ) (h : k < n) (d : α) :
    (l.take n).getD k d = l.getD k d := by
  rw [List.getD_eq_getElem?_getD, List.getElem?_take, if_pos h,
    List.getD_eq_getElem?_getD]

lemma getD_append_left {α : Type} (l1 l2 : List α) (k : ℕ)
    (h : k < l1.length) (d : α) :
    (l1 ++ l2).getD k d = l1.getD k d := by
  rw [List.getD_eq_getElem?_getD, List.getElem?_append, if_pos h,
    List.getD_eq_getElem?_getD]

lemma getD_append_right {α : Type} (l1 l2 : List α) (k : ℕ)
    (h : l1.length ≤ k) (d : α) :
    (l1 ++ l2).getD k d = l2.getD (k - l1.length) d := by
  rw [List.getD_eq_getElem?_getD, List.getElem?_append,
    if_neg (by omega), List.getD_eq_getElem?_getD]

lemma getD_eq_getElem {α : Type} (l : List α) (i : ℕ) (d : α)
    (h : i < l.length) : l.getD i d = l[i] := by
  rw [List.getD_eq_getElem?_getD, List.getElem?_eq_getElem h]
  rfl

/-- The in-place left-to-right pass over a window of indices: each write at
`j` reads only positions `j` and `j + 1`, which a left-to-right pass has
not yet overwritten, so every position `q` in the window ends up holding
`f q` applied to the ORIGINAL entries at `q` and `q + 1`. -/
lemma foldl_set_window (f : ℕ → ℚ → ℚ → ℚ) :
    ∀ (m k : ℕ) (vals : List ℚ), k + m ≤ vals.length → ∀ q : ℕ,
      ((List.range' k m).foldl
        (fun acc j => acc.set j (f j (acc.getD j 0) (acc.getD (j + 1) 0)))
        vals).getD q 0
      = if k ≤ q ∧ q < k + m then f q (vals.getD q 0) (vals.getD (q + 1) 0)
        else vals.getD q 0 := by
  intro m
  induction m with
  | zero =>
      intro k vals _ q
      rw [List.range'_zero, List.foldl_nil,
        if_neg (by omega : ¬(k ≤ q ∧ q < k + 0))]
  | succ m ih =>
      intro k vals h q
      rw [List.range'_succ, List.foldl_cons]
      have hklen : k < vals.length := by omega
      have hlen :
          (vals.set k (f k (vals.getD k 0) (vals.getD (k + 1) 0))).length
            = vals.length := List.length_set vals k _
      rw [ih (k + 1) _ (by rw [hlen]; omega) q]
      by_cases h1 : k + 1 ≤ q ∧ q < k + 1 + m
      · rw [if_pos h1, if_pos (by omega : k ≤ q ∧ q < k + (m + 1)),
          getD_set_of_ne _ _ _ _ _ (by omega : k ≠ q),
          getD_set_of_ne _ _ _ _ _ (by omega : k ≠ q + 1)]
      · rw [if_neg h1]
        by_cases h2 : q = k
        · subst h2
          rw [if_pos (by omega : q ≤ q ∧ q < q + (m + 1)),
            getD_set_self _ _ _ _ hklen]
        · rw [if_neg (by omega : ¬(k ≤ q ∧ q < k + (m + 1))),
            getD_set_of_ne _ _ _ _ _ (by omega : k ≠ q)]

/-- `backstep` preserves the array length. -/
lemma backstep_length (params : BarrierOptionParams) (u d p disc : ℚ)
    (i : ℕ) (vals : List ℚ) :
    (backstep params u d p disc i vals).length = vals.length := by
  unfold backstep
  generalize List.range (i + 1) = l
  induction l generalizing vals with
  | nil => rfl
  | cons j l ih =>
      rw [List.foldl_cons, ih]
      by_cases hb :
          nodeBreached params (params.S0 * u ^ j * d ^ (i - j)) = true
      · simp [hb]
      · simp [hb]

/-- Entrywise description of the in-place pass: positions `0..i` receive
the `treeWrite` of the original entries at `j` and `j+1`, positions
beyond `i` are untouched. -/
lemma backstep_getD (params : BarrierOptionParams) (u d p disc : ℚ)
    (i : ℕ) (vals : List ℚ) (h : i + 1 ≤ vals.length) (q : ℕ) :
    (backstep params u d p disc i vals).getD q 0
    = if q ≤ i then
        treeWrite params u d p disc i q (vals.getD q 0) (vals.getD (q + 1) 0)
      else vals.getD q 0 := by
  unfold backstep
  have hfn :
      (fun (acc : List ℚ) (j : ℕ) =>
        let S_ij := params.S0 * u ^ j * d ^ (i - j)
        if nodeBreached params S_ij then acc.set j 0
        else acc.set j
          (disc * (p * acc.getD (j + 1) 0 + (1 - p) * acc.getD j 0)))
      = fun (acc : List ℚ) (j : ℕ) =>
          acc.set j
            (treeWrite params u d p disc i j (acc.getD j 0)
              (acc.getD (j + 1) 0)) := by
    funext acc j
    simp only [treeWrite]
    split <;> rfl
  rw [hfn, List.range_eq_range',
    foldl_set_window _ (i + 1) 0 vals (by omega) q]
  by_cases hq : q ≤ i
  · rw [if_pos (by omega : 0 ≤ q ∧ q < 0 + (i + 1)), if_pos hq]
  · rw [if_neg (by omega : ¬(0 ≤ q ∧ q < 0 + (i + 1))), if_neg hq]

lemma exceptMap_ok {α : Type} (f : α → Except String ℚ) (g : α → ℚ)
    (l : List α) (h : ∀ a ∈ l, f a = Except.ok (g a)) :
    exceptMap f l = Except.ok (l.map g) := by
  induction l with
  | nil => rfl
  | cons a l ih =>
      have ha : f a = Except.ok (g a) := h a (List.mem_cons_self a l)
      have hl : exceptMap f l = Except.ok (l.map g) :=
        ih (fun b hb => h b (List.mem_cons_of_mem a hb))
      simp [exceptMap, ha, hl]

lemma terminalLayer_ok (params : BarrierOptionParams) (u d : ℚ)
    (n_steps : ℕ)
    (ho : params.option_type = "call" ∨ params.option_type = "put") :
    terminalLayer params u d n_steps
    = Except.ok
        ((List.range (n_steps + 1)).map (terminalValue params u d n_steps)) := by
  unfold terminalLayer
  refine exceptMap_ok _ _ _ (fun j _ => ?_)
  simp only [terminalValue]
  by_cases hb :
      nodeBreached params (params.S0 * u ^ j * d ^ (n_steps - j)) = true
  · simp [hb]
  · simp [hb, vanilla_payoff_recognized _ _ ho]

/-- Invariant of the backward loop: entering `runBack c` with an array
whose entries `0..c` hold the layer-`(n_steps - c)` values of the spec
recurrence, the final root equals `V(0, 0)` (that is, `Vk n_steps 0`). -/
lemma runBack_root (params : BarrierOptionParams) (u d p disc : ℚ)
    (n_steps : ℕ) :
    ∀ (c : ℕ) (vals : List ℚ), c ≤ n_steps →
      vals.length = n_steps + 1 →
      (∀ j, j ≤ c →
        vals.getD j 0 = Vk params u d p disc n_steps (n_steps - c) j) →
      (runBack params u d p disc c vals).getD 0 0
        = Vk params u d p disc n_steps n_steps 0 := by
  intro c
  induction c with
  | zero =>
      intro vals _ _ hinv
      have h0 := hinv 0 (le_refl 0)
      simpa [runBack] using h0
  | succ c ih =>
      intro vals hc hlen hinv
      show (runBack params u d p disc c
        (backstep params u d p disc c vals)).getD 0 0 = _
      refine ih (backstep params u d p disc c vals) (by omega) ?_ ?_
      · rw [backstep_length, hlen]
      · intro j hj
        rw [backstep_getD params u d p disc c vals (by omega) j, if_pos hj]
        have hk : n_steps - c = (n_steps - (c + 1)) + 1 := by omega
        rw [hinv j (by omega), hinv (j + 1) (by omega), hk]
        show _ = Vk params u d p disc n_steps ((n_steps - (c + 1)) + 1) j
        rw [Vk]
        have hi : n_steps - (n_steps - (c + 1) + 1) = c := by omega
        rw [hi]

/-- The tree engine equals the spec recurrence: the returned price is the
root value `V(0,0) = Vk n_steps 0` of the claim's backward recurrence,
with `u, d, p, disc` built by the CRR formulas. -/
lemma tree_eq_Vk (ex sq : ℚ → ℚ) (params : BarrierOptionParams)
    (n_steps : ℕ)
    (ho : params.option_type = "call" ∨ params.option_type = "put") :
    price_barrier_binomial_tree ex sq params n_steps
    = Except.ok
        (Vk params (crrU ex sq params n_steps) (crrD ex sq params n_steps)
          (crrP ex sq params n_steps) (crrDisc ex params n_steps)
          n_steps n_steps 0) := by
  unfold price_barrier_binomial_tree
  simp only [terminalLayer_ok _ _ _ _ ho]
  refine congrArg Except.ok ?_
  refine runBack_root params _ _ _ _ n_steps n_steps _ (le_refl _) ?_ ?_
  · simp
  · intro j hj
    rw [Nat.sub_self]
    rw [getD_map_range _ _ _ (by omega)]
    rfl

/-! ### Monte Carlo engine (`src/monte_carlo.py`)

`np.random.normal` is modelled by an oracle `draw : ℕ → ℕ → ℚ` giving the
entry of the freshly drawn base block at (row, column); `np.log`, `np.exp`
and `np.sqrt` by the oracles `ln`, `ex`, `sq`. -/

/-- The shock matrix `Z` actually used: base block of
`(n_paths + 1) / 2` rows when antithetic (else `n_paths` rows),
`np.vstack([Z, -Z])` when antithetic, then `Z[:n_paths, :]`. -/
def buildShocks (draw : ℕ → ℕ → ℚ) (antithetic : Bool)
    (n_paths n_steps : ℕ) : List (List ℚ) :=
  let base_paths := if antithetic then (n_paths + 1) / 2 else n_paths
  let Zbase := (List.range base_paths).map
    (fun i => (List.range n_steps).map (fun t => draw i t))
  let Z := if antithetic then
      Zbase ++ Zbase.map (fun row => row.map (fun z => -z))
    else Zbase
  Z.take n_paths

/-- Per-row log-price recursion
`log S_t = log S_{t-1} + drift + diffusion * Z_t` started at `x`;
the pointwise meaning of the vectorized column loop in the source. -/
def logPath (drift diffusion x : ℚ) : List ℚ → List ℚ
  | [] => [x]
  | z :: zs => x :: logPath drift diffusion (x + drift + diffusion * z) zs

/-- Embedding of `src/monte_carlo.py`, `simulate_gbm_paths`. -/
def simulate_gbm_paths (ex sq ln : ℚ → ℚ) (draw : ℕ → ℕ → ℚ)
    (params : BarrierOptionParams) (n_paths n_steps : ℕ)
    (antithetic : Bool) : List (List ℚ) :=
  let dt := params.T / (n_steps : ℚ)
  let drift := (params.r - 0.5 * params.sigma ^ 2) * dt
  let diffusion := params.sigma * sq dt
  (buildShocks draw antithetic n_paths n_steps).map
    (fun zrow => (logPath drift diffusion (ln params.S0) zrow).map ex)

/-- `numpy` sample mean. -/
def listMean (l : List ℚ) : ℚ := l.sum / (l.length : ℚ)

/-- The quantity under the square root in `numpy`'s `std(ddof=1)`:
sum of squared deviations over `n - 1`. -/
def sampleVarUnbiased (l : List ℚ) : ℚ :=
  (l.map (fun x => (x - listMean l) ^ 2)).sum / ((l.length : ℚ) - 1)

/-- Embedding of `src/monte_carlo.py`, `price_barrier_monte_carlo`,
returning `(price, std_error)` (the `runtime` component is not modelled).
`std(ddof=1)` is `sq` applied to the unbiased sample variance. -/
def price_barrier_monte_carlo (ex sq ln : ℚ → ℚ) (draw : ℕ → ℕ → ℚ)
    (params : BarrierOptionParams) (n_paths n_steps : ℕ)
    (antithetic : Bool) : Except String (ℚ × ℚ) :=
  let S_paths :=
    simulate_gbm_paths ex sq ln draw params n_paths n_steps antithetic
  match exceptMap (fun row => barrier_payoff_from_path row params)
      S_paths with
  | Except.error e => Except.error e
  | Except.ok payoffs =>
      let discount_factor := ex (-(params.r * params.T))
      let discounted_payoffs := payoffs.map (fun x => discount_factor * x)
      Except.ok (listMean discounted_payoffs,
        sq (sampleVarUnbiased discounted_payoffs) / sq ((n_paths : ℚ)))

lemma getD_map_of_lt {α β : Type} (f : α → β) (l : List α) (t : ℕ)
    (h : t < l.length) (d : α) (dd : β) :
    (l.map f).getD t dd = f (l.getD t d) := by
  rw [List.getD_eq_getElem?_getD, List.getElem?_map,
    List.getElem?_eq_getElem h, List.getD_eq_getElem?_getD,
    List.getElem?_eq_getElem h]
  rfl

lemma buildShocks_length (draw : ℕ → ℕ → ℚ) (antithetic : Bool)
    (n_paths n_steps : ℕ) :
    (buildShocks draw antithetic n_paths n_steps).length = n_paths := by
  unfold buildShocks
  cases antithetic with
  | false => simp
  | true => simp; omega

lemma buildShocks_row_length (draw : ℕ → ℕ → ℚ) (antithetic : Bool)
    (n_paths n_steps : ℕ) (row : List ℚ)
    (h : row ∈ buildShocks draw antithetic n_paths n_steps) :
    row.length = n_steps := by
  unfold buildShocks at h
  have h' := List.mem_of_mem_take h
  cases antithetic with
  | false =>
      simp only [if_neg (Bool.false_ne_true)] at h'
      obtain ⟨i, _, rfl⟩ := List.mem_map.mp h'
      simp
  | true =>
      simp only [if_pos rfl] at h'
      rcases List.mem_append.mp h' with h'' | h''
      · obtain ⟨i, _, rfl⟩ := List.mem_map.mp h''
        simp
      · obtain ⟨r, hr, rfl⟩ := List.mem_map.mp h''
        obtain ⟨i, _, rfl⟩ := List.mem_map.mp hr
        simp

lemma logPath_length (drift diffusion : ℚ) :
    ∀ (zs : List ℚ) (x : ℚ),
      (logPath drift diffusion x zs).length = zs.length + 1 := by
  intro zs
  induction zs with
  | nil => intro x; rfl
  | cons z zs ih => intro x; simp [logPath, ih]

lemma logPath_cons (drift diffusion x : ℚ) (zs : List ℚ) :
    ∃ rest, logPath drift diffusion x zs = x :: rest := by
  cases zs with
  | nil => exact ⟨[], rfl⟩
  | cons z zs => exact ⟨_, rfl⟩

lemma logPath_getD_zero (drift diffusion x : ℚ) (zs : List ℚ) :
    (logPath drift diffusion x zs).getD 0 0 = x := by
  cases zs <;> rfl

lemma logPath_getD_succ (drift diffusion : ℚ) :
    ∀ (zs : List ℚ) (x : ℚ) (t : ℕ), t < zs.length →
      (logPath drift diffusion x zs).getD (t + 1) 0
      = (logPath drift diffusion x zs).getD t 0
          + drift + diffusion * zs.getD t 0 := by
  intro zs
  induction zs with
  | nil => intro x t ht; simp at ht
  | cons z zs ih =>
      intro x t ht
      cases t with
      | zero =>
          show (logPath drift diffusion (x + drift + diffusion * z) zs).getD 0 0
            = x + drift + diffusion * z
          exact logPath_getD_zero _ _ _ _
      | succ t =>
          show (logPath drift diffusion (x + drift + diffusion * z) zs).getD
              (t + 1) 0 = _
          rw [ih (x + drift + diffusion * z) t (by simpa using ht)]
          rfl

lemma simulate_length (ex sq ln : ℚ → ℚ) (draw : ℕ → ℕ → ℚ)
    (params : BarrierOptionParams) (n_paths n_steps : ℕ)
    (antithetic : Bool) :
    (simulate_gbm_paths ex sq ln draw params n_paths n_steps
      antithetic).length = n_paths := by
  unfold simulate_gbm_paths
  rw [List.length_map, buildShocks_length]

lemma simulate_row_length (ex sq ln : ℚ → ℚ) (draw : ℕ → ℕ → ℚ)
    (params : BarrierOptionParams) (n_paths n_steps : ℕ)
    (antithetic : Bool) (row : List ℚ)
    (h : row ∈ simulate_gbm_paths ex sq ln draw params n_paths n_steps
      antithetic) :
    row.length = n_steps + 1 := by
  unfold simulate_gbm_paths at h
  obtain ⟨zrow, hz, rfl⟩ := List.mem_map.mp h
  rw [List.length_map, logPath_length,
    buildShocks_row_length draw antithetic n_paths n_steps zrow hz]

/-- Embedding of `src/config.py`, `DEFAULT_PARAMS`. -/
def DEFAULT_PARAMS : BarrierOptionParams :=
  ⟨100, 100, 0.05, 0.2, 1, 90, "down-and-out", "call"⟩

lemma vanilla_payoff_nonneg (ST : ℚ) (params : BarrierOptionParams)
    (v : ℚ) (h : vanilla_payoff ST params = Except.ok v) : 0 ≤ v := by
  unfold vanilla_payoff at h
  by_cases hc : params.option_type = "call"
  · rw [if_pos hc] at h
    cases h
    exact le_max_right _ _
  · rw [if_neg hc] at h
    by_cases hp : params.option_type = "put"
    · rw [if_pos hp] at h
      cases h
      exact le_max_right _ _
    · rw [if_neg hp] at h
      cases h

lemma barrier_payoff_nonneg (path : List ℚ) (params : BarrierOptionParams)
    (v : ℚ) (h : barrier_payoff_from_path path params = Except.ok v) :
    0 ≤ v := by
  unfold barrier_payoff_from_path at h
  cases hhit : barrier_hit path params with
  | error e => rw [hhit] at h; cases h
  | ok b =>
      rw [hhit] at h
      cases b with
      | true => cases h; exact le_refl 0
      | false =>
          cases hl : path.getLast? with
          | none => rw [hl] at h; cases h
          | some ST =>
              rw [hl] at h
              exact vanilla_payoff_nonneg ST params v h

lemma getLast?_of_ne_nil (path : List ℚ) (hne : path ≠ []) :
    path.getLast? = some (path.getLastD 0) := by
  cases path with
  | nil => exact absurd rfl hne
  | cons a l => simp [List.getLastD_eq_getLast?, List.getLast?]

/-- C1: for a non-empty path and recognized barrier/option types,
`barrier_hit` is true iff some path element satisfies the breach
condition (`x ≤ barrier` for down-and-out, `x ≥ barrier` for up-and-out);
`barrier_payoff_from_path` returns 0 when the barrier is hit and otherwise
the vanilla payoff at the last path element, with
`vanilla_payoff = max(S - K, 0)` for a call and `max(K - S, 0)` for a put;
on the path `[100, 85, 95, 105]`, barrier 90 down-and-out (the default
parameters) gives payoff 0, and barrier 80 gives the vanilla call payoff
`max(105 - 100, 0)` at the terminal price 105. -/
theorem C1_payoff_evaluator (path : List ℚ) (params : BarrierOptionParams)
    (S : ℚ) (hne : path ≠ [])
    (hb : params.barrier_type = "down-and-out" ∨
          params.barrier_type = "up-and-out")
    (ho : params.option_type = "call" ∨ params.option_type = "put") :
    (barrier_hit path params
      = Except.ok (decide
          ((params.barrier_type = "down-and-out" ∧
              ∃ x ∈ path, x ≤ params.barrier) ∨
           (params.barrier_type = "up-and-out" ∧
              ∃ x ∈ path, x ≥ params.barrier))))
    ∧ (params.option_type = "call" →
        vanilla_payoff S params = Except.ok (max (S - params.K) 0))
    ∧ (params.option_type = "put" →
        vanilla_payoff S params = Except.ok (max (params.K - S) 0))
    ∧ (barrier_hit path params = Except.ok true →
        barrier_payoff_from_path path params = Except.ok 0)
    ∧ (barrier_hit path params = Except.ok false →
        barrier_payoff_from_path path params
          = vanilla_payoff (path.getLastD 0) params)
    ∧ barrier_payoff_from_path [100, 85, 95, 105] DEFAULT_PARAMS
        = Except.ok 0
    ∧ barrier_payoff_from_path [100, 85, 95, 105]
          ⟨100, 100, 0.05, 0.2, 1, 80, "down-and-out", "call"⟩
        = Except.ok (max ((105 : ℚ) - 100) 0) := by
  refine ⟨?_, ?_, ?_, ?_, ?_, ?_, ?_⟩
  · rcases hb with h | h
    · simp only [barrier_hit, if_pos h]
      refine congrArg Except.ok ?_
      rw [Bool.eq_iff_iff]
      simp [List.any_eq_true, h, ge_iff_le]
    · have hnd : ¬ params.barrier_type = "down-and-out" := by simp [h]
      simp only [barrier_hit, if_neg hnd, if_pos h]
      refine congrArg Except.ok ?_
      rw [Bool.eq_iff_iff]
      simp [List.any_eq_true, h, ge_iff_le]
  · intro hc
    simp [vanilla_payoff, hc]
  · intro hp
    simp [vanilla_payoff, hp]
  · intro hh
    unfold barrier_payoff_from_path
    rw [hh]
  · intro hh
    unfold barrier_payoff_from_path
    rw [hh, getLast?_of_ne_nil path hne]
  · rw [barrier_payoff_recognized _ _ (Or.inl rfl) (Or.inl rfl) (by simp)]
    have hhit : barrierHitTotal [100, 85, 95, 105] DEFAULT_PARAMS = true := by
      decide
    simp [payoffTotal, hhit]
  · rw [barrier_payoff_recognized _ _ (Or.inl rfl) (Or.inl rfl) (by simp)]
    have hhit : barrierHitTotal [100, 85, 95, 105]
        ⟨100, 100, 0.05, 0.2, 1, 80, "down-and-out", "call"⟩ = false := by
      decide
    simp [payoffTotal, hhit, vanillaTotal]

theorem C1_payoff_evaluator_witness :
    ([(100 : ℚ), 85, 95, 105] ≠ ([] : List ℚ))
    ∧ ((barrier_hit [(100 : ℚ), 85, 95, 105] DEFAULT_PARAMS
      = Except.ok (decide
          ((DEFAULT_PARAMS.barrier_type = "down-and-out" ∧
              ∃ x ∈ [(100 : ℚ), 85, 95, 105], x ≤ DEFAULT_PARAMS.barrier) ∨
           (DEFAULT_PARAMS.barrier_type = "up-and-out" ∧
              ∃ x ∈ [(100 : ℚ), 85, 95, 105], x ≥ DEFAULT_PARAMS.barrier))))
    ∧ (DEFAULT_PARAMS.option_type = "call" →
        vanilla_payoff 105 DEFAULT_PARAMS
          = Except.ok (max ((105 : ℚ) - DEFAULT_PARAMS.K) 0))
    ∧ (DEFAULT_PARAMS.option_type = "put" →
        vanilla_payoff 105 DEFAULT_PARAMS
          = Except.ok (max (DEFAULT_PARAMS.K - 105) 0))
    ∧ (barrier_hit [(100 : ℚ), 85, 95, 105] DEFAULT_PARAMS = Except.ok true →
        barrier_payoff_from_path [(100 : ℚ), 85, 95, 105] DEFAULT_PARAMS
          = Except.ok 0)
    ∧ (barrier_hit [(100 : ℚ), 85, 95, 105] DEFAULT_PARAMS = Except.ok false →
        barrier_payoff_from_path [(100 : ℚ), 85, 95, 105] DEFAULT_PARAMS
          = vanilla_payoff ([(100 : ℚ), 85, 95, 105].getLastD 0) DEFAULT_PARAMS)
    ∧ barrier_payoff_from_path [100, 85, 95, 105] DEFAULT_PARAMS
        = Except.ok 0
    ∧ barrier_payoff_from_path [100, 85, 95, 105]
          ⟨100, 100, 0.05, 0.2, 1, 80, "down-and-out", "call"⟩
        = Except.ok (max ((105 : ℚ) - 100) 0)) :=
  ⟨by simp,
    C1_payoff_evaluator [100, 85, 95, 105] DEFAULT_PARAMS 105 (by simp)
      (Or.inl rfl) (Or.inl rfl)⟩

/-- C8: `barrier_hit` fails iff `barrier_type` is unrecognized, and
`vanilla_payoff` fails iff `option_type` is unrecognized; both are pure
functions, so the error is surfaced directly and recognized values can
never fail. -/
theorem C8_invalid_configuration (path : List ℚ)
    (params : BarrierOptionParams) (ST : ℚ) :
    ((∃ e, barrier_hit path params = Except.error e)
      ↔ ¬(params.barrier_type = "down-and-out" ∨
          params.barrier_type = "up-and-out"))
    ∧ ((∃ e, vanilla_payoff ST params = Except.error e)
      ↔ ¬(params.option_type = "call" ∨ params.option_type = "put")) := by
  constructor
  · unfold barrier_hit
    by_cases h1 : params.barrier_type = "down-and-out"
    · simp [h1]
    · by_cases h2 : params.barrier_type = "up-and-out"
      · simp [h1, h2]
      · simp [h1, h2]
  · unfold vanilla_payoff
    by_cases h1 : params.option_type = "call"
    · simp [h1]
    · by_cases h2 : params.option_type = "put"
      · simp [h1, h2]
      · simp [h1, h2]

theorem C8_invalid_configuration_witness :
    ((∃ e, barrier_hit [(1 : ℚ)] ⟨100, 100, 0.05, 0.2, 1, 90, "sideways", "call"⟩
        = Except.error e)
      ↔ ¬((("sideways" : String) = "down-and-out") ∨
          (("sideways" : String) = "up-and-out")))
    ∧ ((∃ e, vanilla_payoff (1 : ℚ)
          ⟨100, 100, 0.05, 0.2, 1, 90, "sideways", "call"⟩ = Except.error e)
      ↔ ¬((("call" : String) = "call") ∨ (("call" : String) = "put"))) :=
  C8_invalid_configuration [(1 : ℚ)]
    ⟨100, 100, 0.05, 0.2, 1, 90, "sideways", "call"⟩ 1

/-- C10: `barrier_payoff_from_path` checks the barrier first: once the
barrier is hit it returns 0 without ever validating `option_type`, and
when `barrier_type` is unrecognized the `barrier_type` error is the one
raised (again regardless of `option_type`). -/
theorem C10_error_ordering (path : List ℚ) (params : BarrierOptionParams) :
    (barrier_hit path params = Except.ok true →
      barrier_payoff_from_path path params = Except.ok 0)
    ∧ (¬(params.barrier_type = "down-and-out" ∨
          params.barrier_type = "up-and-out") →
      barrier_payoff_from_path path params
        = Except.error ("Unknown barrier_type: " ++ params.barrier_type)) := by
  constructor
  · intro hh
    unfold barrier_payoff_from_path
    rw [hh]
  · intro hbad
    push_neg at hbad
    unfold barrier_payoff_from_path barrier_hit
    rw [if_neg hbad.1, if_neg hbad.2]

theorem C10_error_ordering_witness :
    barrier_payoff_from_path [(1 : ℚ)]
        ⟨100, 100, 0.05, 0.2, 1, 90, "down-and-out", "banana"⟩
      = Except.ok 0
    ∧ barrier_payoff_from_path [(1 : ℚ)]
        ⟨100, 100, 0.05, 0.2, 1, 90, "sideways", "banana"⟩
      = Except.error ("Unknown barrier_type: " ++ "sideways") :=
  ⟨(C10_error_ordering [(1 : ℚ)]
      ⟨100, 100, 0.05, 0.2, 1, 90, "down-and-out", "banana"⟩).1 rfl,
   (C10_error_ordering [(1 : ℚ)]
      ⟨100, 100, 0.05, 0.2, 1, 90, "sideways", "banana"⟩).2 (by decide)⟩

/-- The two-buffer (current/next layer ping-pong) reference scheme:
layer `i` is computed as a fresh list from the later layer's values. -/
def twoBufferStep (params : BarrierOptionParams) (u d p disc : ℚ)
    (i : ℕ) (next : List ℚ) : List ℚ :=
  (List.range (i + 1)).map
    (fun j =>
      treeWrite params u d p disc i j (next.getD j 0) (next.getD (j + 1) 0))

/-- Full two-buffer backward induction, same loop structure as `runBack`. -/
def twoBufferRun (params : BarrierOptionParams) (u d p disc : ℚ) :
    ℕ → List ℚ → List ℚ
  | 0, vals => vals
  | i + 1, vals =>
      twoBufferRun params u d p disc i
        (twoBufferStep params u d p disc i vals)

lemma twoBufferRun_root (params : BarrierOptionParams) (u d p disc : ℚ)
    (n_steps : ℕ) :
    ∀ (c : ℕ) (vals : List ℚ), c ≤ n_steps →
      (∀ j, j ≤ c →
        vals.getD j 0 = Vk params u d p disc n_steps (n_steps - c) j) →
      (twoBufferRun params u d p disc c vals).getD 0 0
        = Vk params u d p disc n_steps n_steps 0 := by
  intro c
  induction c with
  | zero =>
      intro vals _ hinv
      have h0 := hinv 0 (le_refl 0)
      simpa [twoBufferRun] using h0
  | succ c ih =>
      intro vals hc hinv
      show (twoBufferRun params u d p disc c
        (twoBufferStep params u d p disc c vals)).getD 0 0 = _
      refine ih _ (by omega) ?_
      intro j hj
      unfold twoBufferStep
      rw [getD_map_range _ _ _ (by omega)]
      have hk : n_steps - c = (n_steps - (c + 1)) + 1 := by omega
      rw [hinv j (by omega), hinv (j + 1) (by omega), hk]
      show _ = Vk params u d p disc n_steps ((n_steps - (c + 1)) + 1) j
      rw [Vk]
      have hi : n_steps - (n_steps - (c + 1) + 1) = c := by omega
      rw [hi]

/-- C2: for recognized types, the tree price is the root value `V(0,0)`
of the spec's backward recurrence (`Vk` at `k = n_steps`, `j = 0`) built
from the CRR parameters `u = exp(sigma*sqrt(dt))`, `d = 1/u`,
`a = exp(r*dt)`, `p = (a-d)/(u-d)`, `disc = exp(-r*dt)` with
`dt = T/n_steps`. -/
theorem C2_tree_recurrence (ex sq : ℚ → ℚ) (params : BarrierOptionParams)
    (n_steps : ℕ) (hn : 1 ≤ n_steps) (hsig : 0 < params.sigma)
    (hb : params.barrier_type = "down-and-out" ∨
          params.barrier_type = "up-and-out")
    (ho : params.option_type = "call" ∨ params.option_type = "put") :
    price_barrier_binomial_tree ex sq params n_steps
    = Except.ok
        (Vk params (crrU ex sq params n_steps) (crrD ex sq params n_steps)
          (crrP ex sq params n_steps) (crrDisc ex params n_steps)
          n_steps n_steps 0) :=
  tree_eq_Vk ex sq params n_steps ho

theorem C2_tree_recurrence_witness :
    price_barrier_binomial_tree (fun _ => 1) (fun _ => 1) DEFAULT_PARAMS 1
    = Except.ok
        (Vk DEFAULT_PARAMS
          (crrU (fun _ => 1) (fun _ => 1) DEFAULT_PARAMS 1)
          (crrD (fun _ => 1) (fun _ => 1) DEFAULT_PARAMS 1)
          (crrP (fun _ => 1) (fun _ => 1) DEFAULT_PARAMS 1)
          (crrDisc (fun _ => 1) DEFAULT_PARAMS 1) 1 1 0) :=
  C2_tree_recurrence (fun _ => 1) (fun _ => 1) DEFAULT_PARAMS 1
    (le_refl 1) (by norm_num [DEFAULT_PARAMS]) (Or.inl rfl) (Or.inl rfl)

/-- C6: the in-place single-array backward pass is equivalent to the
two-buffer reference scheme: after processing layer `i`, entries `0..i`
of the mutated array coincide with the freshly built two-buffer layer
(each write at `j` reads positions `j` and `j+1`, which the left-to-right
pass has not yet overwritten), and the final tree price equals the root
produced by the full two-buffer backward induction from the same terminal
layer. -/
theorem C6_inplace_equivalence (params : BarrierOptionParams)
    (u d p disc : ℚ) (i : ℕ) (vals : List ℚ) (hi : i + 1 ≤ vals.length)
    (ex sq : ℚ → ℚ) (n_steps : ℕ)
    (ho : params.option_type = "call" ∨ params.option_type = "put") :
    (∀ j, j ≤ i →
      (backstep params u d p disc i vals).getD j 0
        = (twoBufferStep params u d p disc i vals).getD j 0)
    ∧ price_barrier_binomial_tree ex sq params n_steps
      = Except.ok
          ((twoBufferRun params (crrU ex sq params n_steps)
            (crrD ex sq params n_steps) (crrP ex sq params n_steps)
            (crrDisc ex params n_steps) n_steps
            ((List.range (n_steps + 1)).map
              (terminalValue params (crrU ex sq params n_steps)
                (crrD ex sq params n_steps) n_steps))).getD 0 0) := by
  constructor
  · intro j hj
    rw [backstep_getD params u d p disc i vals hi j, if_pos hj]
    unfold twoBufferStep
    rw [getD_map_range _ _ _ (by omega)]
  · rw [tree_eq_Vk ex sq params n_steps ho]
    refine congrArg Except.ok ?_
    refine (twoBufferRun_root params _ _ _ _ n_steps n_steps _ (le_refl _)
      ?_).symm
    intro j hj
    rw [Nat.sub_self, getD_map_range _ _ _ (by omega)]
    rfl

theorem C6_inplace_equivalence_witness :
    (∀ j, j ≤ 0 →
      (backstep DEFAULT_PARAMS 1 1 1 1 0 [(0 : ℚ)]).getD j 0
        = (twoBufferStep DEFAULT_PARAMS 1 1 1 1 0 [(0 : ℚ)]).getD j 0)
    ∧ price_barrier_binomial_tree (fun _ => 1) (fun _ => 1) DEFAULT_PARAMS 1
      = Except.ok
          ((twoBufferRun DEFAULT_PARAMS
            (crrU (fun _ => 1) (fun _ => 1) DEFAULT_PARAMS 1)
            (crrD (fun _ => 1) (fun _ => 1) DEFAULT_PARAMS 1)
            (crrP (fun _ => 1) (fun _ => 1) DEFAULT_PARAMS 1)
            (crrDisc (fun _ => 1) DEFAULT_PARAMS 1) 1
            ((List.range 2).map
              (terminalValue DEFAULT_PARAMS
                (crrU (fun _ => 1) (fun _ => 1) DEFAULT_PARAMS 1)
                (crrD (fun _ => 1) (fun _ => 1) DEFAULT_PARAMS 1) 1))).getD 0 0) :=
  C6_inplace_equivalence DEFAULT_PARAMS 1 1 1 1 0 [(0 : ℚ)] (by simp)
    (fun _ => 1) (fun _ => 1) 1 (Or.inl rfl)

lemma buildShocks_true (draw : ℕ → ℕ → ℚ) (n_paths n_steps : ℕ) :
    buildShocks draw true n_paths n_steps
    = (((List.range ((n_paths + 1) / 2)).map
          (fun i => (List.range n_steps).map (fun t => draw i t)))
        ++ ((List.range ((n_paths + 1) / 2)).map
          (fun i => (List.range n_steps).map (fun t => draw i t))).map
            (fun row => row.map (fun z => -z))).take n_paths := rfl

lemma buildShocks_base_row (draw : ℕ → ℕ → ℚ) (n_paths n_steps k : ℕ)
    (hk : k < (n_paths + 1) / 2) (hkn : k < n_paths) :
    (buildShocks draw true n_paths n_steps).getD k []
      = (List.range n_steps).map (fun t => draw k t) := by
  rw [buildShocks_true, getD_take _ n_paths k hkn,
    getD_append_left _ _ k (by simpa using hk),
    getD_map_range _ _ _ hk]

lemma buildShocks_neg_row (draw : ℕ → ℕ → ℚ) (n_paths n_steps k : ℕ)
    (heven : n_paths % 2 = 0) (hk : k < n_paths / 2) :
    (buildShocks draw true n_paths n_steps).getD (k + n_paths / 2) []
      = ((buildShocks draw true n_paths n_steps).getD k []).map
          (fun z => -z) := by
  have hbase : (n_paths + 1) / 2 = n_paths / 2 := by omega
  rw [buildShocks_base_row draw n_paths n_steps k (by omega) (by omega),
    buildShocks_true, getD_take _ n_paths _ (by omega),
    getD_append_right _ _ _ (by simp [hbase])]
  have hidx : k + n_paths / 2 -
      ((List.range ((n_paths + 1) / 2)).map
        (fun i => (List.range n_steps).map (fun t => draw i t))).length
      = k := by simp [hbase]
  rw [hidx, getD_map_of_lt _ _ k (by simpa [hbase] using hk)
    ((List.range n_steps).map (fun t => draw 0 t)) [],
    getD_map_range _ _ _ (by omega : k < (n_paths + 1) / 2)]

lemma buildShocks_getD_length (draw : ℕ → ℕ → ℚ) (antithetic : Bool)
    (n_paths n_steps i : ℕ) (hi : i < n_paths) :
    ((buildShocks draw antithetic n_paths n_steps).getD i []).length
      = n_steps := by
  have hl : i < (buildShocks draw antithetic n_paths n_steps).length := by
    rw [buildShocks_length]
    exact hi
  rw [getD_eq_getElem _ _ _ hl]
  exact buildShocks_row_length draw antithetic n_paths n_steps _
    (List.getElem_mem hl)

lemma simulate_row (ex sq ln : ℚ → ℚ) (draw : ℕ → ℕ → ℚ)
    (params : BarrierOptionParams) (n_paths n_steps : ℕ)
    (antithetic : Bool) (i : ℕ) (hi : i < n_paths) :
    (simulate_gbm_paths ex sq ln draw params n_paths n_steps
      antithetic).getD i []
    = (logPath ((params.r - 0.5 * params.sigma ^ 2) *
          (params.T / (n_steps : ℚ)))
        (params.sigma * sq (params.T / (n_steps : ℚ))) (ln params.S0)
        ((buildShocks draw antithetic n_paths n_steps).getD i [])).map
          ex := by
  unfold simulate_gbm_paths
  exact getD_map_of_lt _ _ i (by rw [buildShocks_length]; exact hi) [] []

/-- C5: `simulate_gbm_paths` always returns exactly `n_paths` rows of
`n_steps + 1` entries each (odd antithetic `n_paths` included); the shock
matrix used is the first `n_paths` rows of the `ceil(n_paths/2)`-row base
block stacked above its elementwise negation, so rows below
`ceil(n_paths/2)` are the drawn base block and, for even `n_paths`, row
`k + n_paths/2` is the exact negation of row `k`. -/
theorem C5_antithetic_shape (ex sq ln : ℚ → ℚ) (draw : ℕ → ℕ → ℚ)
    (params : BarrierOptionParams) (n_paths n_steps : ℕ)
    (antithetic : Bool) (hp : 1 ≤ n_paths) :
    (simulate_gbm_paths ex sq ln draw params n_paths n_steps
      antithetic).length = n_paths
    ∧ (∀ row ∈ simulate_gbm_paths ex sq ln draw params n_paths n_steps
        antithetic, row.length = n_steps + 1)
    ∧ (buildShocks draw antithetic n_paths n_steps).length = n_paths
    ∧ (∀ k, k < (n_paths + 1) / 2 → k < n_paths →
        (buildShocks draw true n_paths n_steps).getD k []
          = (List.range n_steps).map (fun t => draw k t))
    ∧ (n_paths % 2 = 0 → ∀ k, k < n_paths / 2 →
        (buildShocks draw true n_paths n_steps).getD (k + n_paths / 2) []
          = ((buildShocks draw true n_paths n_steps).getD k []).map
              (fun z => -z)) :=
  ⟨simulate_length ex sq ln draw params n_paths n_steps antithetic,
   fun row h => simulate_row_length ex sq ln draw params n_paths n_steps
     antithetic row h,
   buildShocks_length draw antithetic n_paths n_steps,
   fun k hk hkn => buildShocks_base_row draw n_paths n_steps k hk hkn,
   fun he k hk => buildShocks_neg_row draw n_paths n_steps k he hk⟩

theorem C5_antithetic_shape_witness :
    (simulate_gbm_paths (fun _ => 1) (fun _ => 0) (fun _ => 0)
      (fun _ _ => 0) DEFAULT_PARAMS 3 2 true).length = 3
    ∧ (∀ row ∈ simulate_gbm_paths (fun _ => 1) (fun _ => 0) (fun _ => 0)
        (fun _ _ => 0) DEFAULT_PARAMS 3 2 true, row.length = 2 + 1)
    ∧ (buildShocks (fun _ _ => 0) true 3 2).length = 3
    ∧ (∀ k, k < (3 + 1) / 2 → k < 3 →
        (buildShocks (fun _ _ => 0) true 3 2).getD k []
          = (List.range 2).map (fun t => (fun _ _ => (0 : ℚ)) k t))
    ∧ (3 % 2 = 0 → ∀ k, k < 3 / 2 →
        (buildShocks (fun _ _ => 0) true 3 2).getD (k + 3 / 2) []
          = ((buildShocks (fun _ _ => 0) true 3 2).getD k []).map
              (fun z => -z)) :=
  C5_antithetic_shape (fun _ => 1) (fun _ => 0) (fun _ => 0) (fun _ _ => 0)
    DEFAULT_PARAMS 3 2 true (by decide)

/-- C4: each returned path row starts at `S0` and evolves multiplicatively
by `exp((r - sigma^2/2) dt + sigma sqrt(dt) Z(i, t-1))`, and row `i` is a
function of shock row `i` only; the analytic facts about `exp` that this
requires (`exp` turns sums into products, `exp (log S0) = S0`) are taken
as hypotheses on the oracle functions. -/
theorem C4_gbm_row_evolution (ex sq ln : ℚ → ℚ) (draw draw2 : ℕ → ℕ → ℚ)
    (params : BarrierOptionParams) (n_paths n_steps : ℕ)
    (antithetic : Bool) (i t : ℕ) (hi : i < n_paths) (ht1 : 1 ≤ t)
    (ht2 : t ≤ n_steps)
    (hhom : ∀ a b, ex (a + b) = ex a * ex b)
    (hround : ex (ln params.S0) = params.S0) :
    ((simulate_gbm_paths ex sq ln draw params n_paths n_steps
        antithetic).getD i []).getD 0 0 = params.S0
    ∧ ((simulate_gbm_paths ex sq ln draw params n_paths n_steps
        antithetic).getD i []).getD t 0
      = ((simulate_gbm_paths ex sq ln draw params n_paths n_steps
          antithetic).getD i []).getD (t - 1) 0
        * ex ((params.r - 0.5 * params.sigma ^ 2) *
              (params.T / (n_steps : ℚ))
            + params.sigma * sq (params.T / (n_steps : ℚ))
              * ((buildShocks draw antithetic n_paths n_steps).getD
                  i []).getD (t - 1) 0)
    ∧ ((buildShocks draw antithetic n_paths n_steps).getD i []
        = (buildShocks draw2 antithetic n_paths n_steps).getD i [] →
      (simulate_gbm_paths ex sq ln draw params n_paths n_steps
          antithetic).getD i []
        = (simulate_gbm_paths ex sq ln draw2 params n_paths n_steps
            antithetic).getD i []) := by
  have hzlen : ((buildShocks draw antithetic n_paths n_steps).getD
      i []).length = n_steps :=
    buildShocks_getD_length draw antithetic n_paths n_steps i hi
  have hrow := simulate_row ex sq ln draw params n_paths n_steps
    antithetic i hi
  refine ⟨?_, ?_, ?_⟩
  · rw [hrow, getD_map_of_lt ex _ 0 (by rw [logPath_length]; omega) 0 0,
      logPath_getD_zero, hround]
  · obtain ⟨s, rfl⟩ : ∃ s, t = s + 1 := ⟨t - 1, by omega⟩
    rw [hrow, getD_map_of_lt ex _ (s + 1)
        (by rw [logPath_length, hzlen]; omega) 0 0,
      getD_map_of_lt ex _ (s + 1 - 1)
        (by rw [logPath_length, hzlen]; omega) 0 0,
      logPath_getD_succ _ _ _ _ s (by rw [hzlen]; omega)]
    have hadd :
        (logPath ((params.r - 0.5 * params.sigma ^ 2) *
            (params.T / (n_steps : ℚ)))
          (params.sigma * sq (params.T / (n_steps : ℚ))) (ln params.S0)
          ((buildShocks draw antithetic n_paths n_steps).getD i [])).getD
            s 0
          + (params.r - 0.5 * params.sigma ^ 2) *
            (params.T / (n_steps : ℚ))
          + params.sigma * sq (params.T / (n_steps : ℚ))
            * ((buildShocks draw antithetic n_paths n_steps).getD
                i []).getD s 0
        = (logPath ((params.r - 0.5 * params.sigma ^ 2) *
            (params.T / (n_steps : ℚ)))
          (params.sigma * sq (params.T / (n_steps : ℚ))) (ln params.S0)
          ((buildShocks draw antithetic n_paths n_steps).getD i [])).getD
            s 0
          + ((params.r - 0.5 * params.sigma ^ 2) *
              (params.T / (n_steps : ℚ))
            + params.sigma * sq (params.T / (n_steps : ℚ))
              * ((buildShocks draw antithetic n_paths n_steps).getD
                  i []).getD s 0) := by ring
    rw [hadd, hhom]
    simp
  · intro hz
    rw [hrow, hz, simulate_row ex sq ln draw2 params n_paths n_steps
      antithetic i hi]

theorem C4_gbm_row_evolution_witness :
    (0 : ℚ) < 1 ∧
    (((simulate_gbm_paths (fun _ => 1) (fun _ => 0) (fun _ => 0)
        (fun _ _ => 0) ⟨1, 100, 0.05, 0.2, 1, 90, "down-and-out", "call"⟩
        1 1 false).getD 0 []).getD 0 0
      = (⟨1, 100, 0.05, 0.2, 1, 90, "down-and-out", "call"⟩ :
          BarrierOptionParams).S0
    ∧ ((simulate_gbm_paths (fun _ => 1) (fun _ => 0) (fun _ => 0)
        (fun _ _ => 0) ⟨1, 100, 0.05, 0.2, 1, 90, "down-and-out", "call"⟩
        1 1 false).getD 0 []).getD 1 0
      = ((simulate_gbm_paths (fun _ => 1) (fun _ => 0) (fun _ => 0)
          (fun _ _ => 0) ⟨1, 100, 0.05, 0.2, 1, 90, "down-and-out", "call"⟩
          1 1 false).getD 0 []).getD (1 - 1) 0
        * (fun _ => (1 : ℚ))
            (((⟨1, 100, 0.05, 0.2, 1, 90, "down-and-out", "call"⟩ :
                BarrierOptionParams).r
              - 0.5 * (⟨1, 100, 0.05, 0.2, 1, 90, "down-and-out", "call"⟩ :
                BarrierOptionParams).sigma ^ 2) *
              ((⟨1, 100, 0.05, 0.2, 1, 90, "down-and-out", "call"⟩ :
                BarrierOptionParams).T / ((1 : ℕ) : ℚ))
            + (⟨1, 100, 0.05, 0.2, 1, 90, "down-and-out", "call"⟩ :
                BarrierOptionParams).sigma
              * (fun _ => (0 : ℚ))
                  ((⟨1, 100, 0.05, 0.2, 1, 90, "down-and-out", "call"⟩ :
                    BarrierOptionParams).T / ((1 : ℕ) : ℚ))
              * ((buildShocks (fun _ _ => 0) false 1 1).getD 0 []).getD
                  (1 - 1) 0)
    ∧ ((buildShocks (fun _ _ => 0) false 1 1).getD 0 []
        = (buildShocks (fun _ _ => 0) false 1 1).getD 0 [] →
      (simulate_gbm_paths (fun _ => 1) (fun _ => 0) (fun _ => 0)
          (fun _ _ => 0) ⟨1, 100, 0.05, 0.2, 1, 90, "down-and-out", "call"⟩
          1 1 false).getD 0 []
        = (simulate_gbm_paths (fun _ => 1) (fun _ => 0) (fun _ => 0)
            (fun _ _ => 0)
            ⟨1, 100, 0.05, 0.2, 1, 90, "down-and-out", "call"⟩
            1 1 false).getD 0 [])) :=
  ⟨by norm_num,
   C4_gbm_row_evolution (fun _ => 1) (fun _ => 0) (fun _ => 0)
     (fun _ _ => 0) (fun _ _ => 0)
     ⟨1, 100, 0.05, 0.2, 1, 90, "down-and-out", "call"⟩ 1 1 false 0 1
     (by decide) (le_refl 1) (le_refl 1)
     (fun a b => by norm_num) (by norm_num)⟩

lemma mc_ok (ex sq ln : ℚ → ℚ) (draw : ℕ → ℕ → ℚ)
    (params : BarrierOptionParams) (n_paths n_steps : ℕ)
    (antithetic : Bool)
    (hb : params.barrier_type = "down-and-out" ∨
          params.barrier_type = "up-and-out")
    (ho : params.option_type = "call" ∨ params.option_type = "put") :
    price_barrier_monte_carlo ex sq ln draw params n_paths n_steps
      antithetic
    = Except.ok
        (listMean ((simulate_gbm_paths ex sq ln draw params n_paths
            n_steps antithetic).map
          (fun row => ex (-(params.r * params.T)) * payoffTotal row params)),
         sq (sampleVarUnbiased
            ((simulate_gbm_paths ex sq ln draw params n_paths n_steps
                antithetic).map
              (fun row =>
                ex (-(params.r * params.T)) * payoffTotal row params)))
          / sq ((n_paths : ℚ))) := by
  have hall : ∀ row ∈ simulate_gbm_paths ex sq ln draw params n_paths
      n_steps antithetic,
      barrier_payoff_from_path row params
        = Except.ok (payoffTotal row params) := by
    intro row hrow
    refine barrier_payoff_recognized row params hb ho ?_
    have hlen := simulate_row_length ex sq ln draw params n_paths n_steps
      antithetic row hrow
    intro hnil
    rw [hnil] at hlen
    simp at hlen
  unfold price_barrier_monte_carlo
  simp only [exceptMap_ok _ _ _ hall]
  simp only [List.map_map, Except.ok.injEq, Prod.mk.injEq]
  exact ⟨rfl, rfl⟩

/-- C3: for recognized types, the Monte Carlo engine applies
`barrier_payoff_from_path` to every simulated path (exactly the rows of
`simulate_gbm_paths` with the same arguments), discounts by
`exp(-r*T)`, and returns the sample mean of the discounted payoffs as
the price and `std(ddof=1)/sqrt(n_paths)` as the standard error. -/
theorem C3_monte_carlo_estimator (ex sq ln : ℚ → ℚ) (draw : ℕ → ℕ → ℚ)
    (params : BarrierOptionParams) (n_paths n_steps : ℕ)
    (antithetic : Bool) (hp : 2 ≤ n_paths) (hs : 1 ≤ n_steps)
    (hb : params.barrier_type = "down-and-out" ∨
          params.barrier_type = "up-and-out")
    (ho : params.option_type = "call" ∨ params.option_type = "put") :
    (∀ row ∈ simulate_gbm_paths ex sq ln draw params n_paths n_steps
        antithetic,
      barrier_payoff_from_path row params
        = Except.ok (payoffTotal row params))
    ∧ price_barrier_monte_carlo ex sq ln draw params n_paths n_steps
        antithetic
      = Except.ok
          (listMean ((simulate_gbm_paths ex sq ln draw params n_paths
              n_steps antithetic).map
            (fun row =>
              ex (-(params.r * params.T)) * payoffTotal row params)),
           sq (sampleVarUnbiased
              ((simulate_gbm_paths ex sq ln draw params n_paths n_steps
                  antithetic).map
                (fun row =>
                  ex (-(params.r * params.T)) * payoffTotal row params)))
            / sq ((n_paths : ℚ))) := by
  constructor
  · intro row hrow
    refine barrier_payoff_recognized row params hb ho ?_
    have hlen := simulate_row_length ex sq ln draw params n_paths n_steps
      antithetic row hrow
    intro hnil
    rw [hnil] at hlen
    simp at hlen
  · exact mc_ok ex sq ln draw params n_paths n_steps antithetic hb ho

theorem C3_monte_carlo_estimator_witness :
    (∀ row ∈ simulate_gbm_paths (fun _ => 1) (fun _ => 1) (fun _ => 0)
        (fun _ _ => 0) DEFAULT_PARAMS 2 1 true,
      barrier_payoff_from_path row DEFAULT_PARAMS
        = Except.ok (payoffTotal row DEFAULT_PARAMS))
    ∧ price_barrier_monte_carlo (fun _ => 1) (fun _ => 1) (fun _ => 0)
        (fun _ _ => 0) DEFAULT_PARAMS 2 1 true
      = Except.ok
          (listMean ((simulate_gbm_paths (fun _ => 1) (fun _ => 1)
              (fun _ => 0) (fun _ _ => 0) DEFAULT_PARAMS 2 1 true).map
            (fun row =>
              (fun _ => (1 : ℚ))
                  (-(DEFAULT_PARAMS.r * DEFAULT_PARAMS.T))
                * payoffTotal row DEFAULT_PARAMS)),
           (fun _ => (1 : ℚ))
              (sampleVarUnbiased
                ((simulate_gbm_paths (fun _ => 1) (fun _ => 1) (fun _ => 0)
                    (fun _ _ => 0) DEFAULT_PARAMS 2 1 true).map
                  (fun row =>
                    (fun _ => (1 : ℚ))
                        (-(DEFAULT_PARAMS.r * DEFAULT_PARAMS.T))
                      * payoffTotal row DEFAULT_PARAMS)))
            / (fun _ => (1 : ℚ)) (((2 : ℕ) : ℚ))) :=
  C3_monte_carlo_estimator (fun _ => 1) (fun _ => 1) (fun _ => 0)
    (fun _ _ => 0) DEFAULT_PARAMS 2 1 true (le_refl 2) (le_refl 1)
    (Or.inl rfl) (Or.inl rfl)

/-- Copy of a parameter record with a new barrier level (the two pricings
compared in the monotonicity claim differ only in `barrier`). -/
def setBarrier (params : BarrierOptionParams) (B : ℚ) :
    BarrierOptionParams :=
  ⟨params.S0, params.K, params.r, params.sigma, params.T, B,
    params.barrier_type, params.option_type⟩

@[simp] lemma setBarrier_S0 (params : BarrierOptionParams) (B : ℚ) :
    (setBarrier params B).S0 = params.S0 := rfl

@[simp] lemma setBarrier_K (params : BarrierOptionParams) (B : ℚ) :
    (setBarrier params B).K = params.K := rfl

@[simp] lemma setBarrier_barrier (params : BarrierOptionParams) (B : ℚ) :
    (setBarrier params B).barrier = B := rfl

@[simp] lemma setBarrier_barrier_type (params : BarrierOptionParams)
    (B : ℚ) : (setBarrier params B).barrier_type = params.barrier_type :=
  rfl

@[simp] lemma setBarrier_option_type (params : BarrierOptionParams)
    (B : ℚ) : (setBarrier params B).option_type = params.option_type := rfl

lemma vanillaTotal_nonneg (ST : ℚ) (params : BarrierOptionParams) :
    0 ≤ vanillaTotal ST params := by
  unfold vanillaTotal
  split <;> exact le_max_right _ _

lemma payoffTotal_nonneg (path : List ℚ) (params : BarrierOptionParams) :
    0 ≤ payoffTotal path params := by
  unfold payoffTotal
  split
  · exact le_refl 0
  · exact vanillaTotal_nonneg _ _

lemma barrierHitTotal_anti (path : List ℚ) (params : BarrierOptionParams)
    (B2 : ℚ) (hbt : params.barrier_type = "down-and-out")
    (hB : params.barrier ≤ B2)
    (h : barrierHitTotal path (setBarrier params B2) = false) :
    barrierHitTotal path params = false := by
  unfold barrierHitTotal at h ⊢
  rw [setBarrier_barrier_type, if_pos hbt, setBarrier_barrier] at h
  rw [if_pos hbt]
  rw [List.any_eq_false] at h ⊢
  intro x hx
  have h2 := h x hx
  simp only [decide_eq_true_eq] at h2 ⊢
  intro hle
  exact h2 (le_trans hle hB)

lemma payoffTotal_anti (path : List ℚ) (params : BarrierOptionParams)
    (B2 : ℚ) (hbt : params.barrier_type = "down-and-out")
    (hB : params.barrier ≤ B2) :
    payoffTotal path (setBarrier params B2) ≤ payoffTotal path params := by
  unfold payoffTotal
  by_cases h2 : barrierHitTotal path (setBarrier params B2) = true
  · rw [if_pos h2]
    split
    · exact le_refl 0
    · exact vanillaTotal_nonneg _ _
  · have h2' : barrierHitTotal path (setBarrier params B2) = false := by
      simpa using h2
    have h1' : barrierHitTotal path params = false :=
      barrierHitTotal_anti path params B2 hbt hB h2'
    rw [if_neg h2, if_neg (by simp [h1'])]
    exact le_of_eq rfl

lemma barrier_payoff_ok_ne_nil (path : List ℚ)
    (params : BarrierOptionParams) (v : ℚ)
    (hb : params.barrier_type = "down-and-out" ∨
          params.barrier_type = "up-and-out")
    (h : barrier_payoff_from_path path params = Except.ok v) :
    path ≠ [] := by
  intro hnil
  subst hnil
  unfold barrier_payoff_from_path at h
  rw [barrier_hit_recognized [] params hb] at h
  have hf : barrierHitTotal [] params = false := by
    unfold barrierHitTotal
    split <;> rfl
  rw [hf] at h
  exact absurd h (by simp)

lemma barrier_payoff_anti (path : List ℚ) (params : BarrierOptionParams)
    (B2 v1 v2 : ℚ) (hbt : params.barrier_type = "down-and-out")
    (hot : params.option_type = "call") (hB : params.barrier ≤ B2)
    (h1 : barrier_payoff_from_path path params = Except.ok v1)
    (h2 : barrier_payoff_from_path path (setBarrier params B2)
      = Except.ok v2) :
    v2 ≤ v1 := by
  have hne : path ≠ [] :=
    barrier_payoff_ok_ne_nil path params v1 (Or.inl hbt) h1
  rw [barrier_payoff_recognized path params (Or.inl hbt) (Or.inl hot) hne]
    at h1
  rw [barrier_payoff_recognized path (setBarrier params B2) (Or.inl hbt)
    (Or.inl hot) hne] at h2
  have e1 : payoffTotal path params = v1 := Except.ok.inj h1
  have e2 : payoffTotal path (setBarrier params B2) = v2 := Except.ok.inj h2
  rw [← e1, ← e2]
  exact payoffTotal_anti path params B2 hbt hB

lemma listMean_map_le (l : List (List ℚ)) (f g : List ℚ → ℚ)
    (h : ∀ x ∈ l, f x ≤ g x) :
    listMean (l.map f) ≤ listMean (l.map g) := by
  unfold listMean
  rw [List.length_map, List.length_map]
  rcases Nat.eq_zero_or_pos l.length with h0 | h0
  · rw [List.length_eq_zero.mp h0]
    simp
  · have hsum : (l.map f).sum ≤ (l.map g).sum := List.sum_le_sum h
    have hc : (0 : ℚ) < (l.length : ℚ) := by exact_mod_cast h0
    exact (div_le_div_iff_of_pos_right hc).mpr hsum

lemma nodeBreached_down (params : BarrierOptionParams)
    (hbt : params.barrier_type = "down-and-out") (S : ℚ) :
    nodeBreached params S = decide (S ≤ params.barrier) := by
  unfold nodeBreached
  simp [hbt]

lemma nodeBreached_anti (params : BarrierOptionParams) (B2 S : ℚ)
    (hbt : params.barrier_type = "down-and-out")
    (hB : params.barrier ≤ B2)
    (h : nodeBreached (setBarrier params B2) S = false) :
    nodeBreached params S = false := by
  rw [nodeBreached_down params hbt]
  rw [nodeBreached_down (setBarrier params B2) (by simpa using hbt),
    setBarrier_barrier] at h
  simp only [decide_eq_false_iff_not] at h ⊢
  intro hle
  exact h (le_trans hle hB)

lemma Vk_nonneg (params : BarrierOptionParams) (u d p disc : ℚ)
    (n_steps : ℕ) (hp0 : 0 ≤ p) (hp1 : p ≤ 1) (hd : 0 ≤ disc) :
    ∀ k j, 0 ≤ Vk params u d p disc n_steps k j := by
  intro k
  induction k with
  | zero =>
      intro j
      simp only [Vk]
      by_cases hb :
          nodeBreached params
            (params.S0 * u ^ j * d ^ (n_steps - j)) = true
      · simp [terminalValue, hb]
      · simp [terminalValue, hb, vanillaTotal_nonneg]
  | succ k ih =>
      intro j
      simp only [Vk]
      unfold treeWrite
      split
      · exact le_refl 0
      · have h1 : 0 ≤ p * Vk params u d p disc n_steps k (j + 1) :=
          mul_nonneg hp0 (ih (j + 1))
        have h2 : 0 ≤ (1 - p) * Vk params u d p disc n_steps k j :=
          mul_nonneg (by linarith) (ih j)
        exact mul_nonneg hd (by linarith)

lemma Vk_anti (params : BarrierOptionParams) (B2 : ℚ) (u d p disc : ℚ)
    (n_steps : ℕ) (hbt : params.barrier_type = "down-and-out")
    (hB : params.barrier ≤ B2) (hp0 : 0 ≤ p) (hp1 : p ≤ 1)
    (hd : 0 ≤ disc) :
    ∀ k j, Vk (setBarrier params B2) u d p disc n_steps k j
      ≤ Vk params u d p disc n_steps k j := by
  intro k
  induction k with
  | zero =>
      intro j
      simp only [Vk]
      unfold terminalValue
      simp only [setBarrier_S0]
      by_cases h2 :
          nodeBreached (setBarrier params B2)
            (params.S0 * u ^ j * d ^ (n_steps - j)) = true
      · rw [if_pos h2]
        split
        · exact le_refl 0
        · exact vanillaTotal_nonneg _ _
      · have h2' : nodeBreached (setBarrier params B2)
            (params.S0 * u ^ j * d ^ (n_steps - j)) = false := by
          simpa using h2
        have h1' : nodeBreached params
            (params.S0 * u ^ j * d ^ (n_steps - j)) = false :=
          nodeBreached_anti params B2 _ hbt hB h2'
        rw [if_neg h2, if_neg (by simp [h1'])]
        exact le_of_eq rfl
  | succ k ih =>
      intro j
      simp only [Vk]
      unfold treeWrite
      simp only [setBarrier_S0]
      by_cases h2 :
          nodeBreached (setBarrier params B2)
            (params.S0 * u ^ j * d ^ (n_steps - (k + 1) - j)) = true
      · rw [if_pos h2]
        split
        · exact le_refl 0
        · have h1 : 0 ≤ p * Vk params u d p disc n_steps k (j + 1) :=
            mul_nonneg hp0
              (Vk_nonneg params u d p disc n_steps hp0 hp1 hd k (j + 1))
          have hh2 : 0 ≤ (1 - p) * Vk params u d p disc n_steps k j :=
            mul_nonneg (by linarith)
              (Vk_nonneg params u d p disc n_steps hp0 hp1 hd k j)
          exact mul_nonneg hd (by linarith)
      · have h2' : nodeBreached (setBarrier params B2)
            (params.S0 * u ^ j * d ^ (n_steps - (k + 1) - j)) = false := by
          simpa using h2
        have h1' : nodeBreached params
            (params.S0 * u ^ j * d ^ (n_steps - (k + 1) - j)) = false :=
          nodeBreached_anti params B2 _ hbt hB h2'
        rw [if_neg h2, if_neg (by simp [h1'])]
        refine mul_le_mul_of_nonneg_left ?_ hd
        refine add_le_add
          (mul_le_mul_of_nonneg_left (ih (j + 1)) hp0)
          (mul_le_mul_of_nonneg_left (ih j) (by linarith))

lemma listMean_zero (l : List ℚ) (h : ∀ x ∈ l, x = 0) :
    listMean l = 0 := by
  unfold listMean
  rw [List.sum_eq_zero h, zero_div]

lemma nodeBreached_at_S0 (params : BarrierOptionParams) (u d : ℚ)
    (hko : (params.barrier_type = "down-and-out" ∧
              params.S0 ≤ params.barrier)
         ∨ (params.barrier_type = "up-and-out" ∧
              params.barrier ≤ params.S0)) :
    nodeBreached params (params.S0 * u ^ 0 * d ^ (0 - 0)) = true := by
  have hS : params.S0 * u ^ 0 * d ^ (0 - 0) = params.S0 := by
    norm_num
  rw [hS]
  unfold nodeBreached
  rcases hko with ⟨h1, h2⟩ | ⟨h1, h2⟩
  · simp [h1, h2]
  · simp [h1, h2]

/-- C7: barrier monotonicity for down-and-out calls. Raising the barrier
from `barrier` to `B2 ≥ barrier` never increases the per-path payoff, the
Monte Carlo price computed from the same shocks, or the binomial-tree
price (for the tree, under the claim's assumption `p ∈ [0, 1]`; the
per-step discounts `exp(-r dt)`, `exp(-r T)` are assumed nonnegative,
which holds for the real exponential). -/
theorem C7_barrier_monotonicity (ex sq ln : ℚ → ℚ) (draw : ℕ → ℕ → ℚ)
    (params : BarrierOptionParams) (B2 : ℚ) (n_paths n_steps : ℕ)
    (antithetic : Bool) (path : List ℚ)
    (v1 v2 pr1 se1 pr2 se2 t1 t2 : ℚ)
    (hbt : params.barrier_type = "down-and-out")
    (hot : params.option_type = "call")
    (hB : params.barrier ≤ B2)
    (hdisc_mc : 0 ≤ ex (-(params.r * params.T)))
    (hp0 : 0 ≤ crrP ex sq params n_steps)
    (hp1 : crrP ex sq params n_steps ≤ 1)
    (hdisc_tree : 0 ≤ crrDisc ex params n_steps)
    (h1 : barrier_payoff_from_path path params = Except.ok v1)
    (h2 : barrier_payoff_from_path path (setBarrier params B2)
      = Except.ok v2)
    (hmc1 : price_barrier_monte_carlo ex sq ln draw params n_paths
      n_steps antithetic = Except.ok (pr1, se1))
    (hmc2 : price_barrier_monte_carlo ex sq ln draw (setBarrier params B2)
      n_paths n_steps antithetic = Except.ok (pr2, se2))
    (ht1 : price_barrier_binomial_tree ex sq params n_steps
      = Except.ok t1)
    (ht2 : price_barrier_binomial_tree ex sq (setBarrier params B2)
      n_steps = Except.ok t2) :
    v2 ≤ v1 ∧ pr2 ≤ pr1 ∧ t2 ≤ t1 := by
  refine ⟨barrier_payoff_anti path params B2 v1 v2 hbt hot hB h1 h2,
    ?_, ?_⟩
  · rw [mc_ok ex sq ln draw params n_paths n_steps antithetic
      (Or.inl hbt) (Or.inl hot)] at hmc1
    rw [mc_ok ex sq ln draw (setBarrier params B2) n_paths n_steps
      antithetic (Or.inl hbt) (Or.inl hot)] at hmc2
    injection hmc1 with hpair1
    injection hmc2 with hpair2
    injection hpair1 with hfst1 hsnd1
    injection hpair2 with hfst2 hsnd2
    rw [← hfst1, ← hfst2]
    have hsim : simulate_gbm_paths ex sq ln draw (setBarrier params B2)
        n_paths n_steps antithetic
        = simulate_gbm_paths ex sq ln draw params n_paths n_steps
            antithetic := rfl
    rw [hsim]
    exact listMean_map_le _ _ _ (fun row _ =>
      mul_le_mul_of_nonneg_left (payoffTotal_anti row params B2 hbt hB)
        hdisc_mc)
  · rw [tree_eq_Vk ex sq params n_steps (Or.inl hot)] at ht1
    rw [tree_eq_Vk ex sq (setBarrier params B2) n_steps (Or.inl hot)]
      at ht2
    have e1 := Except.ok.inj ht1
    have e2 := Except.ok.inj ht2
    rw [← e1, ← e2]
    exact Vk_anti params B2 (crrU ex sq params n_steps)
      (crrD ex sq params n_steps) (crrP ex sq params n_steps)
      (crrDisc ex params n_steps) n_steps hbt hB hp0 hp1 hdisc_tree
      n_steps 0

/-- C9: when the spot already breaches the barrier (down-and-out with
`barrier ≥ S0`, or up-and-out with `barrier ≤ S0`), every simulated path
is knocked out at its first point and the Monte Carlo price is exactly 0,
and the tree root node is knocked out so the tree price is exactly 0. -/
theorem C9_immediate_knockout (ex sq ln : ℚ → ℚ) (draw : ℕ → ℕ → ℚ)
    (params : BarrierOptionParams) (n_paths n_steps : ℕ)
    (antithetic : Bool) (hp : 1 ≤ n_paths) (hs : 1 ≤ n_steps)
    (hko : (params.barrier_type = "down-and-out" ∧
              params.S0 ≤ params.barrier)
         ∨ (params.barrier_type = "up-and-out" ∧
              params.barrier ≤ params.S0))
    (ho : params.option_type = "call" ∨ params.option_type = "put")
    (hround : ex (ln params.S0) = params.S0) :
    (∃ se, price_barrier_monte_carlo ex sq ln draw params n_paths n_steps
        antithetic = Except.ok (0, se))
    ∧ price_barrier_binomial_tree ex sq params n_steps = Except.ok 0 := by
  have hb : params.barrier_type = "down-and-out" ∨
      params.barrier_type = "up-and-out" := hko.imp And.left And.left
  constructor
  · have hzero : ∀ row ∈ simulate_gbm_paths ex sq ln draw params n_paths
        n_steps antithetic, payoffTotal row params = 0 := by
      intro row hrow
      unfold simulate_gbm_paths at hrow
      obtain ⟨zrow, _, rfl⟩ := List.mem_map.mp hrow
      have hlen : 0 < ((logPath
          ((params.r - 0.5 * params.sigma ^ 2) *
            (params.T / (n_steps : ℚ)))
          (params.sigma * sq (params.T / (n_steps : ℚ)))
          (ln params.S0) zrow).map ex).length := by
        rw [List.length_map, logPath_length]
        omega
      have hhead : ((logPath
          ((params.r - 0.5 * params.sigma ^ 2) *
            (params.T / (n_steps : ℚ)))
          (params.sigma * sq (params.T / (n_steps : ℚ)))
          (ln params.S0) zrow).map ex).getD 0 0 = params.S0 := by
        rw [getD_map_of_lt ex _ 0 (by rw [logPath_length]; omega) 0 0,
          logPath_getD_zero, hround]
      obtain ⟨rest, hrest⟩ := logPath_cons
        ((params.r - 0.5 * params.sigma ^ 2) * (params.T / (n_steps : ℚ)))
        (params.sigma * sq (params.T / (n_steps : ℚ)))
        (ln params.S0) zrow
      have hmem0 : ex (ln params.S0) ∈ (logPath
          ((params.r - 0.5 * params.sigma ^ 2) *
            (params.T / (n_steps : ℚ)))
          (params.sigma * sq (params.T / (n_steps : ℚ)))
          (ln params.S0) zrow).map ex := by
        rw [hrest]
        exact List.mem_map_of_mem ex (List.mem_cons_self _ _)
      rw [hround] at hmem0
      have hmem : params.S0 ∈ (logPath
          ((params.r - 0.5 * params.sigma ^ 2) *
            (params.T / (n_steps : ℚ)))
          (params.sigma * sq (params.T / (n_steps : ℚ)))
          (ln params.S0) zrow).map ex := hmem0
      have hhit : barrierHitTotal ((logPath
          ((params.r - 0.5 * params.sigma ^ 2) *
            (params.T / (n_steps : ℚ)))
          (params.sigma * sq (params.T / (n_steps : ℚ)))
          (ln params.S0) zrow).map ex) params = true := by
        unfold barrierHitTotal
        rcases hko with ⟨hh1, hh2⟩ | ⟨hh1, hh2⟩
        · rw [if_pos hh1, List.any_eq_true]
          exact ⟨params.S0, hmem, by simpa using hh2⟩
        · rw [if_neg (by simp [hh1]), List.any_eq_true]
          exact ⟨params.S0, hmem, by simpa using hh2⟩
      unfold payoffTotal
      rw [if_pos hhit]
    have hmz : listMean ((simulate_gbm_paths ex sq ln draw params
        n_paths n_steps antithetic).map
        (fun row => ex (-(params.r * params.T)) * payoffTotal row params))
        = 0 := by
      refine listMean_zero _ ?_
      intro x hx
      obtain ⟨row, hrow, rfl⟩ := List.mem_map.mp hx
      rw [hzero row hrow, mul_zero]
    rw [mc_ok ex sq ln draw params n_paths n_steps antithetic hb ho, hmz]
    exact ⟨_, rfl⟩
  · rw [tree_eq_Vk ex sq params n_steps ho]
    refine congrArg Except.ok ?_
    obtain ⟨m, rfl⟩ : ∃ m, n_steps = m + 1 := ⟨n_steps - 1, by omega⟩
    simp only [Vk]
    rw [Nat.sub_self]
    unfold treeWrite
    rw [if_pos (nodeBreached_at_S0 params _ _ hko)]

/-- Parameter set used by the monotonicity witness: down-and-out call
whose barrier already dominates the spot, so payoffs evaluate without
rational arithmetic. -/
def witnessParams : BarrierOptionParams :=
  ⟨100, 100, 0.05, 0.2, 1, 1000, "down-and-out", "call"⟩

theorem C7_barrier_monotonicity_witness :
    (0 : ℚ) ≤ 0
    ∧ listMean ((simulate_gbm_paths (fun _ => 1) (fun _ => 1) (fun _ => 0)
          (fun _ _ => 0) (setBarrier witnessParams 2000) 1 1 false).map
        (fun row =>
          (fun _ => (1 : ℚ))
              (-((setBarrier witnessParams 2000).r *
                (setBarrier witnessParams 2000).T))
            * payoffTotal row (setBarrier witnessParams 2000)))
      ≤ listMean ((simulate_gbm_paths (fun _ => 1) (fun _ => 1)
          (fun _ => 0) (fun _ _ => 0) witnessParams 1 1 false).map
        (fun row =>
          (fun _ => (1 : ℚ)) (-(witnessParams.r * witnessParams.T))
            * payoffTotal row witnessParams))
    ∧ Vk (setBarrier witnessParams 2000)
        (crrU (fun _ => 1) (fun _ => 1) (setBarrier witnessParams 2000) 1)
        (crrD (fun _ => 1) (fun _ => 1) (setBarrier witnessParams 2000) 1)
        (crrP (fun _ => 1) (fun _ => 1) (setBarrier witnessParams 2000) 1)
        (crrDisc (fun _ => 1) (setBarrier witnessParams 2000) 1) 1 1 0
      ≤ Vk witnessParams
          (crrU (fun _ => 1) (fun _ => 1) witnessParams 1)
          (crrD (fun _ => 1) (fun _ => 1) witnessParams 1)
          (crrP (fun _ => 1) (fun _ => 1) witnessParams 1)
          (crrDisc (fun _ => 1) witnessParams 1) 1 1 0 :=
  C7_barrier_monotonicity (fun _ => 1) (fun _ => 1) (fun _ => 0)
    (fun _ _ => 0) witnessParams 2000 1 1 false [(100 : ℚ)]
    0 0 _ _ _ _ _ _
    rfl rfl (by decide) (by decide)
    (by simp only [crrP, crrA, crrD, crrU]; norm_num)
    (by simp only [crrP, crrA, crrD, crrU]; norm_num)
    (by decide)
    rfl rfl
    (mc_ok (fun _ => 1) (fun _ => 1) (fun _ => 0) (fun _ _ => 0)
      witnessParams 1 1 false (Or.inl rfl) (Or.inl rfl))
    (mc_ok (fun _ => 1) (fun _ => 1) (fun _ => 0) (fun _ _ => 0)
      (setBarrier witnessParams 2000) 1 1 false (Or.inl rfl) (Or.inl rfl))
    (tree_eq_Vk (fun _ => 1) (fun _ => 1) witnessParams 1 (Or.inl rfl))
    (tree_eq_Vk (fun _ => 1) (fun _ => 1) (setBarrier witnessParams 2000)
      1 (Or.inl rfl))

theorem C9_immediate_knockout_witness :
    (∃ se, price_barrier_monte_carlo (fun _ => 1) (fun _ => 1)
        (fun _ => 0) (fun _ _ => 0)
        ⟨1, 1, 0.05, 0.2, 1, 1000, "down-and-out", "call"⟩ 1 1 false
        = Except.ok (0, se))
    ∧ price_barrier_binomial_tree (fun _ => 1) (fun _ => 1)
        ⟨1, 1, 0.05, 0.2, 1, 1000, "down-and-out", "call"⟩ 1
      = Except.ok 0 :=
  C9_immediate_knockout (fun _ => 1) (fun _ => 1) (fun _ => 0)
    (fun _ _ => 0) ⟨1, 1, 0.05, 0.2, 1, 1000, "down-and-out", "call"⟩
    1 1 false (le_refl 1) (le_refl 1)
    (Or.inl ⟨rfl, by decide⟩) (Or.inl rfl) rfl

end BarrierProject
